import Mathlib

/-!
Shallow embedding of the SUPRSS feed-ingestion and polling-scheduler core.

Sources embedded:
* `src/backend/src/models/Feed.model.js` — feed schema methods `markAsFetched`,
  `markAsError`, `resetErrors` and the static `findFeedsToUpdate`.
* `src/backend/src/models/Collection.model.js` — the collection method
  `updateStats`, the article schema with its uniqueness indexes
  (`link` unique required, `guid` unique sparse, `contentHash` unique sparse),
  and the article pre-save hook calling `generateContentHash`.
* `src/unnamed/part_011` (the feed controller) — `refreshFeed` (manual
  single-feed refresh) and `refreshAllFeeds` (batch refresh over
  `findFeedsToUpdate`).

Conventions of the embedding:
* Times are milliseconds since the epoch as `Nat`; `Date.now()` and
  `new Date()` inside one method body are the same instant `now`.
* JavaScript `a || b` on optional strings is `Option.or` (`<|>`); the fact
  that the empty string is falsy in JS is not exercised by any claim and the
  models never distinguish an empty string from an absent one.
* Mongoose strips `undefined` values from query filters, so a `findOne`
  clause `{link: undefined}` degenerates to `{}` and matches every document;
  `queryMatches` reproduces this.
* `Model.insertMany` validates the documents and inserts them in order but
  does not run the `save` middleware, so the pre-save hook that computes
  `contentHash` does not fire on that path; `Model.create` does run it.
  An ordered bulk insert stops at the first duplicate-key error and keeps
  the documents inserted before it; a validation error rejects the whole
  call before anything is inserted.
* Stored fields not read by any embedded operation (reading time, view
  counters, premium flags, rating, and so on) are projected away.
* Identifiers (`_id` values) are natural numbers and are assumed unique per
  store, matching `findById` semantics.
-/

namespace SUPRSS

/-- Feed `status` enum from the feed schema:
`['active', 'inactive', 'error', 'pending']`. -/
inductive FeedStatus where
  | active
  | inactive
  | error
  | pending
deriving DecidableEq, Repr

/-- The `lastError` subdocument of a feed: `{message, date, attempts}`. -/
structure LastError where
  message : String
  date : Nat
  attempts : Nat
deriving DecidableEq, Repr

/-- The `stats` subdocument of a feed (the fields the core mutates). -/
structure FeedStats where
  totalArticles : Nat
  fetchCount : Nat
  errorCount : Nat
  averageArticlesPerFetch : Rat
deriving DecidableEq, Repr

/-- Feed schema defaults: all counters 0, average 0. -/
def freshFeedStats : FeedStats :=
  { totalArticles := 0, fetchCount := 0, errorCount := 0
    averageArticlesPerFetch := 0 }

/-- A feed document (the slice of the schema the embedded operations read
and write). `updateFrequency` is in minutes, times in milliseconds. -/
structure Feed where
  id : Nat
  name : String
  url : String
  collections : List Nat
  updateFrequency : Nat
  lastFetchedAt : Option Nat
  nextFetchAt : Nat
  status : FeedStatus
  isActive : Bool
  lastError : Option LastError
  stats : FeedStats
deriving DecidableEq, Repr

/-- `this.lastError?.attempts || 0` — the current consecutive-failure count
of a feed (0 when `lastError` is cleared). -/
def attemptsOf (f : Feed) : Nat :=
  match f.lastError with
  | some e => e.attempts
  | none => 0

/-- `feedSchema.methods.markAsFetched(articlesCount = 0)`:
sets `lastFetchedAt`, `nextFetchAt = now + updateFrequency minutes`,
`status = 'active'`, increments `fetchCount`, and only when
`articlesCount > 0` adds to `totalArticles` and reapplies the running-mean
formula `(avg * (fetchCount - 1) + articlesCount) / fetchCount` (with the
already incremented `fetchCount`); finally clears `lastError`. -/
def markAsFetched (now : Nat) (articlesCount : Nat) (f : Feed) : Feed :=
  let fc := f.stats.fetchCount + 1
  let stats :=
    if articlesCount > 0 then
      { f.stats with
        fetchCount := fc
        totalArticles := f.stats.totalArticles + articlesCount
        averageArticlesPerFetch :=
          (f.stats.averageArticlesPerFetch * ((fc : Rat) - 1) + (articlesCount : Rat)) / (fc : Rat) }
    else
      { f.stats with fetchCount := fc }
  { f with
    lastFetchedAt := some now
    nextFetchAt := now + f.updateFrequency * 60000
    status := .active
    stats := stats
    lastError := none }

/-- `feedSchema.methods.markAsError(errorMessage)`:
sets `status = 'error'`, bumps `lastError.attempts`, increments
`errorCount`, computes the exponential backoff
`min(updateFrequency * 2 ^ attempts, 1440)` minutes for `nextFetchAt`,
and after 5 failed attempts sets `isActive = false` (the `status` field is
left at `'error'`). -/
def markAsError (now : Nat) (errorMessage : String) (f : Feed) : Feed :=
  let attempts := attemptsOf f + 1
  let backoffMinutes := min (f.updateFrequency * 2 ^ attempts) 1440
  { f with
    status := .error
    lastError := some { message := errorMessage, date := now, attempts := attempts }
    stats := { f.stats with errorCount := f.stats.errorCount + 1 }
    nextFetchAt := now + backoffMinutes * 60000
    isActive := if attempts ≥ 5 then false else f.isActive }

/-- `feedSchema.methods.resetErrors()`: `status = 'active'`, `lastError`
cleared, `nextFetchAt = now`. (It does not touch `isActive`.) -/
def resetErrors (now : Nat) (f : Feed) : Feed :=
  { f with
    status := .active
    lastError := none
    nextFetchAt := now }

/-- The filter of `feedSchema.statics.findFeedsToUpdate`:
`isActive: true, status: { $ne: 'error' }, nextFetchAt: { $lte: now }`. -/
def dueForUpdate (now : Nat) (f : Feed) : Bool :=
  f.isActive && decide (f.status ≠ FeedStatus.error) && decide (f.nextFetchAt ≤ now)

/-- `feedSchema.statics.findFeedsToUpdate()`: the feeds passing
`dueForUpdate`, limited to the first 10 in store order (the query has no
sort stage). -/
def findFeedsToUpdate (now : Nat) (feeds : List Feed) : List Feed :=
  (feeds.filter (dueForUpdate now)).take 10

/-!
Content hasher. `articleSchema.methods.generateContentHash` feeds
`` `${this.title}${this.content}${this.link}` `` to
`crypto.createHash('sha256')` and stores the hex digest. The digest is
implemented below on the UTF-8 bytes of the input, with 32-bit words as
`Nat` truncated by `% 2 ^ 32`.
-/

/-- Truncation to a 32-bit word. -/
def w32 (n : Nat) : Nat := n % 4294967296

/-- 32-bit right rotation. -/
def rotr (b x : Nat) : Nat := w32 ((x >>> b) ||| (x <<< (32 - b)))

/-- SHA-256 `Ch(x, y, z)`. -/
def shaCh (x y z : Nat) : Nat := (x &&& y) ^^^ ((x ^^^ 4294967295) &&& z)

/-- SHA-256 `Maj(x, y, z)`. -/
def shaMaj (x y z : Nat) : Nat := (x &&& y) ^^^ (x &&& z) ^^^ (y &&& z)

/-- SHA-256 big sigma 0. -/
def bigSigma0 (x : Nat) : Nat := rotr 2 x ^^^ rotr 13 x ^^^ rotr 22 x

/-- SHA-256 big sigma 1. -/
def bigSigma1 (x : Nat) : Nat := rotr 6 x ^^^ rotr 11 x ^^^ rotr 25 x

/-- SHA-256 small sigma 0. -/
def smallSigma0 (x : Nat) : Nat := rotr 7 x ^^^ rotr 18 x ^^^ (x >>> 3)

/-- SHA-256 small sigma 1. -/
def smallSigma1 (x : Nat) : Nat := rotr 17 x ^^^ rotr 19 x ^^^ (x >>> 10)

/-- The 64 SHA-256 round constants (decimal). -/
def shaK : List Nat :=
  [1116352408, 1899447441, 3049323471, 3921009573, 961987163, 1508970993,
   2453635748, 2870763221, 3624381080, 310598401, 607225278, 1426881987,
   1925078388, 2162078206, 2614888103, 3248222580, 3835390401, 4022224774,
   264347078, 604807628, 770255983, 1249150122, 1555081692, 1996064986,
   2554220882, 2821834349, 2952996808, 3210313671, 3336571891, 3584528711,
   113926993, 338241895, 666307205, 773529912, 1294757372, 1396182291,
   1695183700, 1986661051, 2177026350, 2456956037, 2730485921, 2820302411,
   3259730800, 3345764771, 3516065817, 3600352804, 4094571909, 275423344,
   430227734, 506948616, 659060556, 883997877, 958139571, 1322822218,
   1537002063, 1747873779, 1955562222, 2024104815, 2227730452, 2361852424,
   2428436474, 2756734187, 3204031479, 3329325298]

/-- The SHA-256 initial hash value (decimal). -/
def shaH0 : List Nat :=
  [1779033703, 3144134277, 1013904242, 2773480762,
   1359893119, 2600822924, 528734635, 1541459225]

/-- SHA-256 message padding: append `0x80`, zeros up to 56 mod 64, then the
bit length as 8 big-endian bytes. -/
def shaPad (msg : List Nat) : List Nat :=
  let bitLen := 8 * msg.length
  let zeros := (120 - (msg.length + 1) % 64) % 64
  msg ++ [128] ++ List.replicate zeros 0 ++
    (List.range 8).map (fun i => (bitLen >>> (8 * (7 - i))) % 256)

/-- Split a padded message into 64-byte blocks. -/
def shaBlocks (padded : List Nat) : List (List Nat) :=
  (List.range (padded.length / 64)).map (fun i => (padded.drop (64 * i)).take 64)

/-- The 16 initial 32-bit big-endian words of one block. -/
def blockWords (block : List Nat) : List Nat :=
  (List.range 16).map (fun j =>
    block.getD (4 * j) 0 * 16777216 + block.getD (4 * j + 1) 0 * 65536 +
    block.getD (4 * j + 2) 0 * 256 + block.getD (4 * j + 3) 0)

/-- Extend the 16-word schedule by `n` further words. -/
def extendSchedule : Nat → List Nat → List Nat
  | 0, ws => ws
  | n + 1, ws =>
    let t := ws.length
    let w := w32 (smallSigma1 (ws.getD (t - 2) 0) + ws.getD (t - 7) 0 +
      smallSigma0 (ws.getD (t - 15) 0) + ws.getD (t - 16) 0)
    extendSchedule n (ws ++ [w])

/-- The eight 32-bit working variables of the compression loop. -/
structure Hash8 where
  a : Nat
  b : Nat
  c : Nat
  d : Nat
  e : Nat
  f : Nat
  g : Nat
  h : Nat
deriving DecidableEq, Repr

/-- One SHA-256 compression round; the pair is `(W_t, K_t)`. -/
def shaRound (st : Hash8) (wk : Nat × Nat) : Hash8 :=
  let t1 := w32 (st.h + bigSigma1 st.e + shaCh st.e st.f st.g + wk.2 + wk.1)
  let t2 := w32 (bigSigma0 st.a + shaMaj st.a st.b st.c)
  { a := w32 (t1 + t2), b := st.a, c := st.b, d := st.c
    e := w32 (st.d + t1), f := st.e, g := st.f, h := st.g }

/-- Compress one 64-byte block into the running hash value. -/
def compressBlock (hv : List Nat) (block : List Nat) : List Nat :=
  let ws := extendSchedule 48 (blockWords block)
  let st0 : Hash8 :=
    { a := hv.getD 0 0, b := hv.getD 1 0, c := hv.getD 2 0, d := hv.getD 3 0
      e := hv.getD 4 0, f := hv.getD 5 0, g := hv.getD 6 0, h := hv.getD 7 0 }
  let st := (ws.zip shaK).foldl shaRound st0
  [w32 (hv.getD 0 0 + st.a), w32 (hv.getD 1 0 + st.b), w32 (hv.getD 2 0 + st.c),
   w32 (hv.getD 3 0 + st.d), w32 (hv.getD 4 0 + st.e), w32 (hv.getD 5 0 + st.f),
   w32 (hv.getD 6 0 + st.g), w32 (hv.getD 7 0 + st.h)]

/-- SHA-256 of a byte sequence, as the list of eight 32-bit words. -/
def sha256Words (msg : List Nat) : List Nat :=
  (shaBlocks (shaPad msg)).foldl compressBlock shaH0

/-- One lowercase hex digit. -/
def hexDigit (n : Nat) : Char := "0123456789abcdef".toList.getD n '0'

/-- A 32-bit word as 8 lowercase hex digits. -/
def wordHex (w : Nat) : List Char :=
  (List.range 8).map (fun i => hexDigit ((w >>> (4 * (7 - i))) % 16))

/-- UTF-8 encoding of one code point. -/
def encodeUtf8Char (n : Nat) : List Nat :=
  if n < 128 then [n]
  else if n < 2048 then [192 + n / 64, 128 + n % 64]
  else if n < 65536 then [224 + n / 4096, 128 + (n / 64) % 64, 128 + n % 64]
  else [240 + n / 262144, 128 + (n / 4096) % 64, 128 + (n / 64) % 64, 128 + n % 64]

/-- The UTF-8 bytes of a string (what `crypto.update` hashes). -/
def utf8Bytes (s : String) : List Nat :=
  (s.toList.map (fun c => encodeUtf8Char c.toNat)).flatten

/-- The lowercase hex SHA-256 digest of a string, as produced by
`crypto.createHash('sha256').update(content).digest('hex')`. -/
def sha256hex (s : String) : String :=
  String.mk ((sha256Words (utf8Bytes s)).map wordHex).flatten

/-- `generateContentHash` input and digest: the hook concatenates
`` `${this.title}${this.content}${this.link}` `` and hashes it. -/
def generateContentHash (title content link : String) : String :=
  sha256hex (title ++ content ++ link)

/-!
Articles and candidate items.
-/

/-- One candidate item from a parsed feed document (the `rss-parser` item
fields the controllers read). Absent fields are `none`. -/
structure Item where
  title : Option String
  link : Option String
  guid : Option String
  creator : Option String
  author : Option String
  content : Option String
  contentSnippet : Option String
  description : Option String
  contentEncoded : Option String
  pubDate : Option Nat
  categories : List String
  enclosureUrl : Option String
deriving DecidableEq, Repr

/-- An item with every optional field absent and no categories. -/
def emptyItem : Item :=
  { title := none, link := none, guid := none, creator := none, author := none
    content := none, contentSnippet := none, description := none
    contentEncoded := none, pubDate := none, categories := [], enclosureUrl := none }

/-- The object literal the controllers push into `articlesToCreate` before
persistence: `link` and `guid` default to each other and may still be
absent; no `contentHash` field is set here. -/
structure ArticleDoc where
  title : String
  link : Option String
  guid : Option String
  feed : Nat
  collections : List Nat
  author : String
  content : String
  summary : String
  contentHtml : String
  publishedAt : Nat
  categories : List String
  imageUrl : Option String
deriving DecidableEq, Repr

/-- A persisted article (the slice the embedded operations read). `link` is
schema-required so it is total here; `guid` and `contentHash` are sparse.
`readBy` holds the ids of users who read the article (new articles have
none). -/
structure Article where
  title : String
  link : String
  guid : Option String
  feed : Nat
  collections : List Nat
  author : String
  content : String
  summary : String
  contentHtml : String
  publishedAt : Nat
  categories : List String
  imageUrl : Option String
  readBy : List Nat
  contentHash : Option String
deriving DecidableEq, Repr

/-- The dedup pre-check query of both refresh paths:
`findOne({ $or: [{ link: item.link }, { guid: item.guid }] })`.
Mongoose drops `undefined` values from filters, so a clause whose field is
absent becomes `{}` and matches every stored document. -/
def queryMatches (it : Item) (a : Article) : Bool :=
  (match it.link with
   | some l => a.link == l
   | none => true) ||
  (match it.guid with
   | some g => a.guid == some g
   | none => true)

/-- Whether the dedup pre-check finds an existing article for `it`. -/
def existsArticle (store : List Article) (it : Item) : Bool :=
  store.any (queryMatches it)

/-- A duplicate-key check against the three unique indexes: `link` (always
present), `guid` (sparse) and `contentHash` (sparse). -/
def hasKeyConflict (store : List Article) (l : String) (g : Option String)
    (h : Option String) : Bool :=
  store.any (fun a =>
    a.link == l || (g.isSome && a.guid == g) || (h.isSome && a.contentHash == h))

/-- Materialize an `ArticleDoc` without running the save middleware
(`insertMany` path): `contentHash` stays absent. -/
def docToArticleNoHook (d : ArticleDoc) (l : String) : Article :=
  { title := d.title, link := l, guid := d.guid, feed := d.feed
    collections := d.collections, author := d.author, content := d.content
    summary := d.summary, contentHtml := d.contentHtml
    publishedAt := d.publishedAt, categories := d.categories
    imageUrl := d.imageUrl, readBy := [], contentHash := none }

/-- Materialize an `ArticleDoc` through the pre-save hook (`create` path):
the hook sets `contentHash` from title, content and link. -/
def docToArticleHook (d : ArticleDoc) (l : String) : Article :=
  { docToArticleNoHook d l with
    contentHash := some (generateContentHash d.title d.content l) }

/-- The ordered insert loop of `Article.insertMany`: documents are appended
one by one; the first duplicate-key error aborts the rest but keeps what
was already inserted. Returns the error (if any) and the resulting store. -/
def insertManyGo (store : List Article) : List ArticleDoc → Option String × List Article
  | [] => (none, store)
  | d :: ds =>
    match d.link with
    | none => (some "ValidationError", store)
    | some l =>
      if hasKeyConflict store l d.guid none then
        (some "E11000 duplicate key error", store)
      else
        insertManyGo (store ++ [docToArticleNoHook d l]) ds

/-- `Article.insertMany(docs)`: all documents are validated first (`link`
is required; a validation failure inserts nothing), then inserted in order
without running the save middleware. -/
def insertMany (store : List Article) (docs : List ArticleDoc) :
    Option String × List Article :=
  if docs.any (fun d => d.link.isNone) then (some "ValidationError", store)
  else insertManyGo store docs

/-- `Article.create(doc)`: validation, then the pre-save hook (which sets
`contentHash`), then a single insert checked against all three unique
indexes. -/
def createArticle (store : List Article) (d : ArticleDoc) :
    Option String × List Article :=
  match d.link with
  | none => (some "ValidationError", store)
  | some l =>
    let a := docToArticleHook d l
    if hasKeyConflict store l d.guid a.contentHash then
      (some "E11000 duplicate key error", store)
    else
      (none, store ++ [a])

/-!
Collections and the statistics recompute.
-/

/-- The `stats` subdocument of a collection. -/
structure CollStats where
  totalArticles : Nat
  unreadArticles : Nat
  totalFeeds : Nat
  activeFeeds : Nat
  lastUpdated : Nat
deriving DecidableEq, Repr

/-- A collection document (the slice the core reads and writes: its feed
membership and the four counters). -/
structure RssCollection where
  id : Nat
  feeds : List Nat
  stats : CollStats
deriving DecidableEq, Repr

/-- The whole document store the embedded operations touch. -/
structure DB where
  feeds : List Feed
  articles : List Article
  collections : List RssCollection
deriving DecidableEq, Repr

/-- `collectionSchema.methods.updateStats()`: a full recompute from current
storage state — `totalFeeds`/`activeFeeds` from a fresh scan of the
collection's feed set, `totalArticles` from a count over those feeds'
articles, `unreadArticles` from a count of such articles whose `readBy` is
absent or empty. -/
def updateStats (db : DB) (now : Nat) (c : RssCollection) : RssCollection :=
  let feeds := db.feeds.filter (fun f => c.feeds.contains f.id)
  let totalArticles := (db.articles.filter (fun a => c.feeds.contains a.feed)).length
  let unreadArticles :=
    (db.articles.filter (fun a => c.feeds.contains a.feed && a.readBy.isEmpty)).length
  { c with stats :=
    { totalFeeds := feeds.length
      activeFeeds := (feeds.filter (fun f => f.isActive)).length
      totalArticles := totalArticles
      unreadArticles := unreadArticles
      lastUpdated := now } }

/-!
The ingestion pipelines from the feed controller.
-/

/-- `Feed.findById` over the store. -/
def findFeed (db : DB) (fid : Nat) : Option Feed :=
  db.feeds.find? (fun f => f.id == fid)

/-- Persist a mutated feed document back into the store (Mongoose `save`
replaces the document with the same id). -/
def saveFeed (db : DB) (f : Feed) : DB :=
  { db with feeds := db.feeds.map (fun g => if g.id == f.id then f else g) }

/-- The article literal built in `refreshFeed` for one surviving item. -/
def itemToDocRefresh (feed : Feed) (now : Nat) (it : Item) : ArticleDoc :=
  { title := it.title.getD "Sans titre"
    link := it.link <|> it.guid
    guid := it.guid <|> it.link
    feed := feed.id
    collections := feed.collections
    author := ((it.creator <|> it.author).getD "Inconnu")
    content := it.content.getD ""
    summary := ((it.contentSnippet <|> it.description).getD "")
    contentHtml := ((it.contentEncoded <|> it.content).getD "")
    publishedAt := it.pubDate.getD now
    categories := it.categories
    imageUrl := it.enclosureUrl }

/-- The article literal built in `refreshAllFeeds` for one surviving item
(slightly smaller than the manual-refresh one: author falls back from
`creator` only, no `contentHtml`/`imageUrl`; schema defaults apply). -/
def itemToDocBatch (feed : Feed) (now : Nat) (it : Item) : ArticleDoc :=
  { title := it.title.getD "Sans titre"
    link := it.link <|> it.guid
    guid := it.guid <|> it.link
    feed := feed.id
    collections := feed.collections
    author := it.creator.getD "Inconnu"
    content := it.content.getD ""
    summary := it.contentSnippet.getD ""
    contentHtml := ""
    publishedAt := it.pubDate.getD now
    categories := it.categories
    imageUrl := none }

/-- Outcome of the manual single-feed refresh endpoint. -/
inductive RefreshResult where
  | ok (newArticles : Nat)
  | err (message : String)
  | notFound
deriving DecidableEq, Repr

/-- The dedup pre-check loop of `refreshFeed`: the first 50 items whose
`findOne` over the (unchanged during the loop) article store found
nothing. -/
def newItemsOf (db : DB) (items : List Item) : List Item :=
  (items.take 50).filter (fun it => !(existsArticle db.articles it))

/-- The `articlesToCreate` array built by `refreshFeed`. -/
def docsOf (feed : Feed) (now : Nat) (db : DB) (items : List Item) : List ArticleDoc :=
  (newItemsOf db items).map (itemToDocRefresh feed now)

/-- The store state after `refreshFeed` succeeds: the feed saved through
`markAsFetched(newArticlesCount)` and then `updateStats` run on every
collection containing the feed (a `findById` per id; ids are unique, and
each recompute reads the post-insert store). -/
def refreshOkDB (now : Nat) (feed : Feed) (db : DB) (store1 : List Article)
    (cnt : Nat) : DB :=
  let db1 := saveFeed { db with articles := store1 } (markAsFetched now cnt feed)
  { db1 with collections := db1.collections.map (fun c =>
      if feed.collections.contains c.id then updateStats db1 now c else c) }

/-- `refreshFeed` from the feed controller, for one feed, given the parsed
fetch outcome. The pipeline: dedup pre-check (one `findOne` per item over
the unchanged store, inserts happen only after the loop), bulk
`insertMany` of the survivors, `markAsFetched(newArticlesCount)`, then
`updateStats` on every collection containing the feed. Any rejection —
fetch, validation or duplicate key — lands in the single `catch`, which
calls `markAsError` and surfaces the error to the caller. -/
def refreshFeed (now : Nat) (fetched : Except String (List Item)) (fid : Nat)
    (db : DB) : RefreshResult × DB :=
  match findFeed db fid with
  | none => (.notFound, db)
  | some feed =>
    match fetched with
    | .error msg => (.err msg, saveFeed db (markAsError now msg feed))
    | .ok items =>
      let docs := docsOf feed now db items
      match (if docs.length > 0 then insertMany db.articles docs else (none, db.articles)) with
      | (some msg, store1) =>
        (.err msg, saveFeed { db with articles := store1 } (markAsError now msg feed))
      | (none, store1) =>
        (.ok (newItemsOf db items).length,
         refreshOkDB now feed db store1 (newItemsOf db items).length)

/-- The partitioned result of the batch refresh: `{ success: [...],
failed: [...] }`, entries carrying `{feedId, feedName, newArticles}` and
`{feedId, feedName, error}`. -/
structure BatchResult where
  success : List (Nat × String × Nat)
  failed : List (Nat × String × String)
deriving DecidableEq, Repr

/-- The per-item loop inside one batch iteration: the pre-check runs before
each `Article.create`, so it sees the articles created earlier in the same
loop; a rejected create aborts the loop (the exception jumps to the
per-feed catch) but keeps earlier inserts and the count so far. -/
def batchLoop (feed : Feed) (now : Nat) :
    List Item → List Article → Nat → Option String × List Article × Nat
  | [], store, cnt => (none, store, cnt)
  | it :: rest, store, cnt =>
    if existsArticle store it then batchLoop feed now rest store cnt
    else
      match createArticle store (itemToDocBatch feed now it) with
      | (some msg, store1) => (some msg, store1, cnt)
      | (none, store1) => batchLoop feed now rest store1 (cnt + 1)

/-- One iteration of the batch loop over a selected feed: fetch, per-item
dedup and `Article.create` (first 20 items), then `markAsFetched` on
success or `markAsError` on any caught exception. Returns the entry for
the partitioned result. The batch path never touches collection stats. -/
def processOne (now : Nat) (fetched : Except String (List Item)) (feed : Feed)
    (db : DB) : (Sum (Nat × String × Nat) (Nat × String × String)) × DB :=
  match fetched with
  | .error msg =>
    (.inr (feed.id, feed.name, msg), saveFeed db (markAsError now msg feed))
  | .ok items =>
    match batchLoop feed now (items.take 20) db.articles 0 with
    | (some msg, store1, _) =>
      (.inr (feed.id, feed.name, msg),
       saveFeed { db with articles := store1 } (markAsError now msg feed))
    | (none, store1, cnt) =>
      (.inl (feed.id, feed.name, cnt),
       saveFeed { db with articles := store1 } (markAsFetched now cnt feed))

/-- The sequential loop of `refreshAllFeeds` over the selected snapshot:
each feed's pipeline runs inside its own try/catch, so one feed's failure
cannot abort the others; every iteration pushes exactly one entry into
`success` or `failed`. -/
def processFeeds (now : Nat) (fetches : Nat → Except String (List Item)) :
    List Feed → DB → BatchResult × DB
  | [], db => ({ success := [], failed := [] }, db)
  | f :: rest, db =>
    match processOne now (fetches f.id) f db with
    | (.inl entry, db1) =>
      let (r, db2) := processFeeds now fetches rest db1
      ({ r with success := entry :: r.success }, db2)
    | (.inr entry, db1) =>
      let (r, db2) := processFeeds now fetches rest db1
      ({ r with failed := entry :: r.failed }, db2)

/-- `refreshAllFeeds` from the feed controller: select the due feeds via
`findFeedsToUpdate`, run each selected feed's pipeline under its own
try/catch, and return the partitioned success/failure result. `fetches`
gives the parsed fetch outcome per feed id. -/
def refreshAllFeeds (now : Nat) (fetches : Nat → Except String (List Item))
    (db : DB) : BatchResult × DB :=
  processFeeds now fetches (findFeedsToUpdate now db.feeds) db

/-!
Concrete fixtures for witnesses and counterexamples.
-/

/-- A freshly subscribed feed in collection 7, hourly frequency, due at 0. -/
def feedA : Feed :=
  { id := 1, name := "A", url := "http://a", collections := [7]
    updateFrequency := 60, lastFetchedAt := none, nextFetchAt := 0
    status := .active, isActive := true, lastError := none, stats := freshFeedStats }

/-- Collection 7 containing only `feedA`, counters at their defaults. -/
def coll7 : RssCollection :=
  { id := 7, feeds := [1]
    stats := { totalArticles := 0, unreadArticles := 0, totalFeeds := 0
               activeFeeds := 0, lastUpdated := 0 } }

/-- A store holding `feedA`, no articles, and collection 7. -/
def db0 : DB := { feeds := [feedA], articles := [], collections := [coll7] }

/-- An item with the given link and guid. -/
def itemLG (l g : String) : Item :=
  { emptyItem with
    title := some "t"
    link := some l
    guid := some g
    content := some "c" }

/-- `n` consecutive `markAsError` transitions at time `now`. -/
def failTimes (now : Nat) (msg : String) : Nat → Feed → Feed
  | 0, f => f
  | n + 1, f => markAsError now msg (failTimes now msg n f)

/-!
Helper lemmas about the feed health transitions.
-/

theorem attemptsOf_markAsError (now : Nat) (msg : String) (f : Feed) :
    attemptsOf (markAsError now msg f) = attemptsOf f + 1 := rfl

theorem updateFrequency_markAsError (now : Nat) (msg : String) (f : Feed) :
    (markAsError now msg f).updateFrequency = f.updateFrequency := rfl

theorem attemptsOf_failTimes (now : Nat) (msg : String) (n : Nat) (f : Feed) :
    attemptsOf (failTimes now msg n f) = attemptsOf f + n := by
  induction n with
  | zero => rfl
  | succ k ih =>
    simp only [failTimes, attemptsOf_markAsError, ih]
    omega

theorem updateFrequency_failTimes (now : Nat) (msg : String) (n : Nat) (f : Feed) :
    (failTimes now msg n f).updateFrequency = f.updateFrequency := by
  induction n with
  | zero => rfl
  | succ k ih => simp only [failTimes, updateFrequency_markAsError, ih]

theorem nextFetchAt_markAsError (now : Nat) (msg : String) (f : Feed) :
    (markAsError now msg f).nextFetchAt =
      now + min (f.updateFrequency * 2 ^ (attemptsOf f + 1)) 1440 * 60000 := rfl

theorem nextFetchAt_failTimes (now : Nat) (msg : String) (n : Nat) (f : Feed) :
    (failTimes now msg (n + 1) f).nextFetchAt =
      now + min (f.updateFrequency * 2 ^ (attemptsOf f + n + 1)) 1440 * 60000 := by
  show (markAsError now msg (failTimes now msg n f)).nextFetchAt = _
  rw [nextFetchAt_markAsError, attemptsOf_failTimes, updateFrequency_failTimes]

/-- A feed whose `status` field is `'inactive'` but whose `isActive` flag is
still `true`, due since time 0. -/
def feedInactiveStatus : Feed := { feedA with id := 2, status := .inactive }

/-- A due feed with `nextFetchAt = 5`. -/
def feedDue5 : Feed := { feedA with id := 5, nextFetchAt := 5 }

/-- A due feed with `nextFetchAt = 3`. -/
def feedDue3 : Feed := { feedA with id := 3, nextFetchAt := 3 }

/-- C2 counterexample: `markAsFetched` skips the running-mean update when
the fetch yields zero new articles while still incrementing `fetchCount`,
so the per-fetch counts `[3, 0, 5]` leave `averageArticlesPerFetch` at
`3, 3, 11/3` — not the claimed `3, 3/2, 8/3`. -/
theorem c2_counterexample :
    (markAsFetched 20 0 (markAsFetched 10 3 feedA)).stats.averageArticlesPerFetch = 3 ∧
    (markAsFetched 20 0 (markAsFetched 10 3 feedA)).stats.averageArticlesPerFetch ≠ (3 : Rat) / 2 ∧
    (markAsFetched 30 5 (markAsFetched 20 0 (markAsFetched 10 3 feedA))).stats.averageArticlesPerFetch = (11 : Rat) / 3 ∧
    (markAsFetched 30 5 (markAsFetched 20 0 (markAsFetched 10 3 feedA))).stats.averageArticlesPerFetch ≠ (8 : Rat) / 3 := by
  norm_num [markAsFetched, feedA, freshFeedStats]

/-- C2 amended: on a successful fetch with `newCount > 0` the running mean
is updated by the incremental-mean formula over the incremented
`fetchCount`; with `newCount = 0` the average is left unchanged while
`fetchCount` still increments; hence the counts `[3, 0, 5]` produce the
averages `3, 3, 11/3`. -/
theorem c2_amended :
    (∀ (t c : Nat) (f : Feed), 0 < c →
      (markAsFetched t c f).stats.averageArticlesPerFetch =
        (f.stats.averageArticlesPerFetch * (f.stats.fetchCount : Rat) + (c : Rat)) /
          ((f.stats.fetchCount : Rat) + 1)) ∧
    (∀ (t : Nat) (f : Feed),
      (markAsFetched t 0 f).stats.averageArticlesPerFetch =
        f.stats.averageArticlesPerFetch ∧
      (markAsFetched t 0 f).stats.fetchCount = f.stats.fetchCount + 1) ∧
    ((markAsFetched 10 3 feedA).stats.averageArticlesPerFetch = 3 ∧
     (markAsFetched 20 0 (markAsFetched 10 3 feedA)).stats.averageArticlesPerFetch = 3 ∧
     (markAsFetched 30 5 (markAsFetched 20 0 (markAsFetched 10 3 feedA))).stats.averageArticlesPerFetch = (11 : Rat) / 3) := by
  refine ⟨?_, ?_, ?_⟩
  · intro t c f hc
    simp only [markAsFetched, if_pos hc]
    push_cast
    ring_nf
  · intro t f
    simp [markAsFetched]
  · refine ⟨?_, ?_, ?_⟩ <;> norm_num [markAsFetched, feedA, freshFeedStats]

/-- C2 witness for the amended theorem at a concrete fetch. -/
theorem c2_amended_witness :
    0 < 3 ∧
    (markAsFetched 10 3 feedA).stats.averageArticlesPerFetch =
      (feedA.stats.averageArticlesPerFetch * (feedA.stats.fetchCount : Rat) + 3) /
        ((feedA.stats.fetchCount : Rat) + 1) :=
  ⟨by decide, c2_amended.1 10 3 feedA (by decide)⟩

/-- C3 confirmed: with `updateFrequency = 60` and a clean error history,
the n-th consecutive `markAsError` sets `nextFetchAt` to `now` plus
`min(60 * 2 ^ n, 1440)` minutes — deltas 120, 240, 480, 960, 1440 for
n = 1..5 — and the 1440-minute cap holds for every n of at least 5. -/
theorem c3_backoff (t : Nat) (msg : String) (f : Feed)
    (hfreq : f.updateFrequency = 60) (herr : f.lastError = none) :
    (failTimes t msg 1 f).nextFetchAt = t + 120 * 60000 ∧
    (failTimes t msg 2 f).nextFetchAt = t + 240 * 60000 ∧
    (failTimes t msg 3 f).nextFetchAt = t + 480 * 60000 ∧
    (failTimes t msg 4 f).nextFetchAt = t + 960 * 60000 ∧
    (failTimes t msg 5 f).nextFetchAt = t + 1440 * 60000 ∧
    (∀ n, 5 ≤ n → (failTimes t msg n f).nextFetchAt = t + 1440 * 60000) := by
  have ha : attemptsOf f = 0 := by simp [attemptsOf, herr]
  have key : ∀ n m : Nat, min (60 * 2 ^ (n + 1)) 1440 = m →
      (failTimes t msg (n + 1) f).nextFetchAt = t + m * 60000 := by
    intro n m hm
    rw [nextFetchAt_failTimes, hfreq, ha, Nat.zero_add, hm]
  refine ⟨key 0 120 (by decide), key 1 240 (by decide), key 2 480 (by decide),
    key 3 960 (by decide), key 4 1440 (by decide), ?_⟩
  intro n h5
  obtain ⟨k, rfl⟩ : ∃ k, n = k + 1 := ⟨n - 1, by omega⟩
  refine key k 1440 (Nat.min_eq_right ?_)
  have hpow : 2 ^ 5 ≤ 2 ^ (k + 1) := Nat.pow_le_pow_right (by norm_num) (by omega)
  calc 1440 ≤ 60 * 2 ^ 5 := by norm_num
    _ ≤ 60 * 2 ^ (k + 1) := Nat.mul_le_mul_left 60 hpow

/-- C3 witness at a concrete feed. -/
theorem c3_backoff_witness :
    feedA.updateFrequency = 60 ∧ feedA.lastError = none ∧
    (failTimes 0 "timeout" 1 feedA).nextFetchAt = 0 + 120 * 60000 :=
  ⟨by decide, by decide, (c3_backoff 0 "timeout" feedA (by decide) (by decide)).1⟩

/-- C4 counterexample: the 5th consecutive failure leaves the `status`
field at `'error'` — it is never set to `'inactive'`; the auto-disable is
expressed through the separate boolean `isActive` instead. -/
theorem c4_counterexample :
    (failTimes 100 "boom" 5 feedA).status = FeedStatus.error ∧
    (failTimes 100 "boom" 5 feedA).status ≠ FeedStatus.inactive ∧
    (failTimes 100 "boom" 5 feedA).isActive = false := by
  decide

/-- C4 amended: when a failure transition brings the consecutive-failure
count to 5 or more, `markAsError` clears the boolean `isActive` (the
`status` field stays `'error'`); `isActive = false` is preserved by later
failures; and `findFeedsToUpdate` only ever selects feeds with
`isActive = true`, so such a feed is never scheduled. -/
theorem c4_amended :
    (∀ (t : Nat) (msg : String) (f : Feed), 5 ≤ attemptsOf f + 1 →
      (markAsError t msg f).isActive = false) ∧
    (∀ (t : Nat) (msg : String) (f : Feed),
      (markAsError t msg f).status = FeedStatus.error) ∧
    (∀ (t : Nat) (msg : String) (f : Feed), f.isActive = false →
      (markAsError t msg f).isActive = false) ∧
    (∀ (now : Nat) (feeds : List Feed) (f : Feed),
      f ∈ findFeedsToUpdate now feeds → f.isActive = true) := by
  refine ⟨?_, fun t msg f => rfl, ?_, ?_⟩
  · intro t msg f h
    show (if attemptsOf f + 1 ≥ 5 then false else f.isActive) = false
    rw [if_pos h]
  · intro t msg f h
    show (if attemptsOf f + 1 ≥ 5 then false else f.isActive) = false
    split
    · rfl
    · exact h
  · intro now feeds f hmem
    have h2 := List.of_mem_filter (List.mem_of_mem_take hmem)
    simp only [dueForUpdate, Bool.and_eq_true, decide_eq_true_eq] at h2
    exact h2.1.1

/-- C4 witness: a feed at 4 prior failures is auto-disabled by the 5th. -/
theorem c4_amended_witness :
    5 ≤ attemptsOf (failTimes 100 "boom" 4 feedA) + 1 ∧
    (markAsError 100 "boom" (failTimes 100 "boom" 4 feedA)).isActive = false :=
  ⟨by decide, c4_amended.1 100 "boom" (failTimes 100 "boom" 4 feedA) (by decide)⟩

/-- C5 counterexample: a feed with `status = 'inactive'` (and the boolean
`isActive` still `true`) that is past due IS selected by
`findFeedsToUpdate` — the query excludes `'error'`, not `'inactive'` —
and two due feeds are returned in store order even when their
`nextFetchAt` values are descending, since the query has no sort stage. -/
theorem c5_counterexample :
    findFeedsToUpdate 100 [feedInactiveStatus] = [feedInactiveStatus] ∧
    findFeedsToUpdate 100 [feedDue5, feedDue3] = [feedDue5, feedDue3] ∧
    feedDue5.nextFetchAt > feedDue3.nextFetchAt := by
  decide

/-- C5 amended: the selection returns at most 10 feeds, a sublist of the
store in store order (no sorting), exactly those with `isActive = true`,
`status` other than `'error'` and `nextFetchAt ≤ now`; feeds with
`status = 'error'` are never selected (feeds with `status = 'inactive'`
but `isActive = true` can be). -/
theorem c5_amended (now : Nat) (feeds : List Feed) :
    (findFeedsToUpdate now feeds).length ≤ 10 ∧
    (findFeedsToUpdate now feeds).Sublist feeds ∧
    (∀ f ∈ findFeedsToUpdate now feeds,
      f.isActive = true ∧ f.status ≠ FeedStatus.error ∧ f.nextFetchAt ≤ now) ∧
    (∀ f ∈ feeds, f.status = FeedStatus.error → f ∉ findFeedsToUpdate now feeds) := by
  refine ⟨?_, ?_, ?_, ?_⟩
  · exact List.length_take_le 10 _
  · exact (List.take_sublist _ _).trans (List.filter_sublist _)
  · intro f hf
    have h2 := List.of_mem_filter (List.mem_of_mem_take hf)
    simp only [dueForUpdate, Bool.and_eq_true, decide_eq_true_eq] at h2
    exact ⟨h2.1.1, h2.1.2, h2.2⟩
  · intro f _ herrst hmem
    have h2 := List.of_mem_filter (List.mem_of_mem_take hmem)
    simp [dueForUpdate, herrst] at h2

/-- C5 witness at a concrete store. -/
theorem c5_amended_witness :
    feedDue5 ∈ findFeedsToUpdate 100 [feedDue5] ∧
    (feedDue5.isActive = true ∧ feedDue5.status ≠ FeedStatus.error ∧
      feedDue5.nextFetchAt ≤ 100) :=
  ⟨by decide, (c5_amended 100 [feedDue5]).2.2.1 feedDue5 (by decide)⟩

/-- C6 counterexample: after 5 consecutive failures (auto-disable) a
manual `resetErrors` restores `status`, clears `lastError` and sets
`nextFetchAt = now`, but does not restore the boolean `isActive`, so the
feed is still never selected — the claim that a previously auto-disabled
feed becomes immediately eligible is false. -/
theorem c6_counterexample :
    (resetErrors 200 (failTimes 100 "boom" 5 feedA)).status = FeedStatus.active ∧
    (resetErrors 200 (failTimes 100 "boom" 5 feedA)).lastError = none ∧
    (resetErrors 200 (failTimes 100 "boom" 5 feedA)).nextFetchAt = 200 ∧
    (resetErrors 200 (failTimes 100 "boom" 5 feedA)).isActive = false ∧
    findFeedsToUpdate 200 [resetErrors 200 (failTimes 100 "boom" 5 feedA)] = [] := by
  decide

/-- C6 amended: `resetErrors` sets `status = 'active'`, clears `lastError`
(so the consecutive-attempt count reads 0) and sets `nextFetchAt = now`,
leaving `isActive` untouched; the feed is immediately eligible again if
and only if `isActive` is still `true` — a feed auto-disabled by 5
failures stays out of the schedule. -/
theorem c6_amended (t : Nat) (f : Feed) :
    (resetErrors t f).status = FeedStatus.active ∧
    (resetErrors t f).lastError = none ∧
    attemptsOf (resetErrors t f) = 0 ∧
    (resetErrors t f).nextFetchAt = t ∧
    (resetErrors t f).isActive = f.isActive ∧
    (f.isActive = true → resetErrors t f ∈ findFeedsToUpdate t [resetErrors t f]) ∧
    (f.isActive = false → findFeedsToUpdate t [resetErrors t f] = []) := by
  refine ⟨rfl, rfl, rfl, rfl, rfl, ?_, ?_⟩
  · intro h
    simp [findFeedsToUpdate, dueForUpdate, resetErrors, h]
  · intro h
    simp [findFeedsToUpdate, dueForUpdate, resetErrors, h]

/-- C6 witness: a healthy feed is due again right after the reset. -/
theorem c6_amended_witness :
    feedA.isActive = true ∧
    resetErrors 300 feedA ∈ findFeedsToUpdate 300 [resetErrors 300 feedA] :=
  ⟨by decide, (c6_amended 300 feedA).2.2.2.2.2.1 (by decide)⟩

/-!
Helper lemmas about persistence and store updates.
-/

theorem saveFeed_articles (db : DB) (f : Feed) :
    (saveFeed db f).articles = db.articles := rfl

theorem saveFeed_collections (db : DB) (f : Feed) :
    (saveFeed db f).collections = db.collections := rfl

theorem insertManyGo_prefix (docs : List ArticleDoc) :
    ∀ (store store1 : List Article) (e : Option String),
      insertManyGo store docs = (e, store1) → ∃ rest, store1 = store ++ rest := by
  induction docs with
  | nil =>
    intro store store1 e h
    simp only [insertManyGo, Prod.mk.injEq] at h
    exact ⟨[], by simp [h.2]⟩
  | cons d ds ih =>
    intro store store1 e h
    cases hdl : d.link with
    | none =>
      simp only [insertManyGo, hdl, Prod.mk.injEq] at h
      exact ⟨[], by simp [h.2]⟩
    | some l =>
      simp only [insertManyGo, hdl] at h
      by_cases hc : hasKeyConflict store l d.guid none = true
      · rw [if_pos hc] at h
        simp only [Prod.mk.injEq] at h
        exact ⟨[], by simp [h.2]⟩
      · rw [if_neg hc] at h
        obtain ⟨rest, hrest⟩ := ih _ _ _ h
        exact ⟨docToArticleNoHook d l :: rest, by simp [hrest]⟩

theorem insertManyGo_mem (docs : List ArticleDoc) :
    ∀ (store store1 : List Article),
      insertManyGo store docs = (none, store1) →
      ∀ d ∈ docs, ∃ l, d.link = some l ∧ docToArticleNoHook d l ∈ store1 := by
  induction docs with
  | nil => intro store store1 h d hd; simp at hd
  | cons d0 ds ih =>
    intro store store1 h d hd
    cases hdl : d0.link with
    | none =>
      simp only [insertManyGo, hdl, Prod.mk.injEq] at h
      exact absurd h.1 (by simp)
    | some l =>
      simp only [insertManyGo, hdl] at h
      by_cases hc : hasKeyConflict store l d0.guid none = true
      · rw [if_pos hc] at h
        simp only [Prod.mk.injEq] at h
        exact absurd h.1 (by simp)
      · rw [if_neg hc] at h
        rcases List.mem_cons.mp hd with rfl | hds
        · refine ⟨l, hdl, ?_⟩
          obtain ⟨rest, hrest⟩ := insertManyGo_prefix ds _ _ _ h
          rw [hrest]
          simp
        · exact ih _ _ h d hds

theorem existsArticle_append (store rest : List Article) (it : Item)
    (h : existsArticle store it = true) :
    existsArticle (store ++ rest) it = true := by
  simp only [existsArticle, List.any_append, Bool.or_eq_true]
  exact Or.inl h

theorem queryMatches_doc (it : Item) (feed : Feed) (now : Nat) (l : String)
    (h : (itemToDocRefresh feed now it).link = some l) :
    queryMatches it (docToArticleNoHook (itemToDocRefresh feed now it) l) = true := by
  cases hl : it.link with
  | none => simp [queryMatches, hl]
  | some l0 =>
    have hll : l = l0 := by
      simp only [itemToDocRefresh, hl] at h
      simp at h
      exact h.symm
    subst hll
    simp [queryMatches, hl, docToArticleNoHook]

theorem findFeed_saveFeed (db : DB) (fid : Nat) (feed f1 : Feed)
    (hfind : findFeed db fid = some feed) (hid : f1.id = feed.id) :
    findFeed (saveFeed db f1) fid = some f1 := by
  have hfeedid : feed.id = fid := by
    have := List.find?_some hfind
    simpa using this
  unfold findFeed saveFeed at *
  revert hfind
  generalize db.feeds = l
  intro hfind
  induction l with
  | nil => simp [List.find?] at hfind
  | cons g gs ih =>
    rw [List.find?] at hfind
    by_cases hg : (g.id == fid) = true
    · rw [hg] at hfind
      have hgfeed : g = feed := by simpa using hfind
      have hg1 : (g.id == f1.id) = true := by
        simp [hid, hgfeed, hfeedid]
      have hf1 : (f1.id == fid) = true := by simp [hid, hfeedid]
      simp [List.find?, hg1, hf1]
    · rw [Bool.not_eq_true] at hg
      rw [hg] at hfind
      simp only at hfind
      have h1 : g.id ≠ fid := by simpa using hg
      have hgne : (g.id == f1.id) = false := by
        have h2 : g.id ≠ f1.id := by rw [hid, hfeedid]; exact h1
        simp [h2]
      simp only [List.map]
      rw [List.find?]
      simp only [hgne, Bool.false_eq_true, if_false, hg]
      exact ih hfind

theorem insertMany_nil (store : List Article) : insertMany store [] = (none, store) := rfl

theorem ite_insertMany (store : List Article) (docs : List ArticleDoc) :
    (if docs.length > 0 then insertMany store docs else (none, store)) =
      insertMany store docs := by
  split
  · rfl
  · next hnot =>
    have hz : docs = [] := List.length_eq_zero.mp (by omega)
    subst hz
    rfl

theorem refreshFeed_notFound (now : Nat) (fetched : Except String (List Item))
    (fid : Nat) (db : DB) (hf : findFeed db fid = none) :
    refreshFeed now fetched fid db = (.notFound, db) := by
  simp only [refreshFeed, hf]

theorem refreshFeed_err_eq (now fid : Nat) (items : List Item) (db : DB)
    (feed : Feed) (msg : String) (store1 : List Article)
    (hfind : findFeed db fid = some feed)
    (hins : insertMany db.articles (docsOf feed now db items) = (some msg, store1)) :
    refreshFeed now (.ok items) fid db =
      (.err msg, saveFeed { db with articles := store1 } (markAsError now msg feed)) := by
  have hne : docsOf feed now db items ≠ [] := by
    intro hnil
    rw [hnil] at hins
    simp [insertMany, insertManyGo] at hins
  have hpos : (docsOf feed now db items).length > 0 := List.length_pos.mpr hne
  simp only [refreshFeed, hfind, if_pos hpos, hins]

theorem refreshFeed_ok_eq (now fid : Nat) (items : List Item) (db : DB)
    (feed : Feed) (store1 : List Article)
    (hfind : findFeed db fid = some feed)
    (hins : insertMany db.articles (docsOf feed now db items) = (none, store1)) :
    refreshFeed now (.ok items) fid db =
      (.ok (newItemsOf db items).length,
       refreshOkDB now feed db store1 (newItemsOf db items).length) := by
  by_cases hpos : (docsOf feed now db items).length > 0
  · simp only [refreshFeed, hfind, if_pos hpos, hins]
  · have hz : docsOf feed now db items = [] := List.length_eq_zero.mp (by omega)
    rw [hz, insertMany_nil, Prod.mk.injEq] at hins
    simp only [refreshFeed, hfind, hz, List.length_nil, gt_iff_lt, Nat.lt_irrefl, if_false,
      hins.2]

/-- Two candidate items sharing the same link (with distinct guids),
followed by a fresh one: upstream documents do repeat links, and both
repeats pass the dedup pre-check because the pre-check never compares the
batch against itself. -/
def c1items : List Item := [itemLG "L" "G", itemLG "L" "H"]

/-- The store produced by the half-completed ordered insert of `c1items`. -/
def c1store : List Article :=
  [docToArticleNoHook (itemToDocRefresh feedA 100 (itemLG "L" "G")) "L"]

/-- C1 counterexample: during a `refreshFeed` run the bulk insert raises a
uniqueness-constraint violation (two deduplicated candidates share a
link); the conflict is NOT recovered locally — it is surfaced to the
caller as an error, and it triggers `markAsError`: the feed's status
becomes `'error'`, `lastError` is set, and `nextFetchAt` moves from 0 to
`now` plus the 120-minute backoff. -/
theorem c1_counterexample :
    (insertMany db0.articles (docsOf feedA 100 db0 c1items)).fst =
      some "E11000 duplicate key error" ∧
    (refreshFeed 100 (.ok c1items) 1 db0).fst = .err "E11000 duplicate key error" ∧
    (findFeed (refreshFeed 100 (.ok c1items) 1 db0).snd 1).map Feed.status =
      some FeedStatus.error ∧
    (findFeed (refreshFeed 100 (.ok c1items) 1 db0).snd 1).map Feed.lastError =
      some (some { message := "E11000 duplicate key error", date := 100, attempts := 1 }) ∧
    (findFeed (refreshFeed 100 (.ok c1items) 1 db0).snd 1).map Feed.nextFetchAt =
      some (100 + 120 * 60000) ∧
    feedA.nextFetchAt = 0 := by
  decide

/-- C1 amended: whenever the bulk insert of the deduplicated candidates is
rejected — a duplicate-key conflict included — `refreshFeed` surfaces the
rejection to the caller as an error and runs the full `markAsError`
failure transition on the feed: `status = 'error'`, `lastError` bumped,
`nextFetchAt` pushed out by the exponential backoff. Collection counters
are left untouched on this path. -/
theorem c1_amended (now fid : Nat) (items : List Item) (db : DB) (feed : Feed)
    (msg : String) (store1 : List Article)
    (hfind : findFeed db fid = some feed)
    (hins : insertMany db.articles (docsOf feed now db items) = (some msg, store1)) :
    (refreshFeed now (.ok items) fid db).fst = .err msg ∧
    findFeed (refreshFeed now (.ok items) fid db).snd fid =
      some (markAsError now msg feed) ∧
    (refreshFeed now (.ok items) fid db).snd.collections = db.collections ∧
    (markAsError now msg feed).status = FeedStatus.error ∧
    (markAsError now msg feed).lastError =
      some { message := msg, date := now, attempts := attemptsOf feed + 1 } ∧
    (markAsError now msg feed).nextFetchAt =
      now + min (feed.updateFrequency * 2 ^ (attemptsOf feed + 1)) 1440 * 60000 := by
  have heq := refreshFeed_err_eq now fid items db feed msg store1 hfind hins
  rw [heq]
  exact ⟨rfl,
    findFeed_saveFeed { db with articles := store1 } fid feed (markAsError now msg feed)
      hfind rfl,
    rfl, rfl, rfl, rfl⟩

/-- C1 witness at the concrete conflicting batch. -/
theorem c1_amended_witness :
    findFeed db0 1 = some feedA ∧
    insertMany db0.articles (docsOf feedA 100 db0 c1items) =
      (some "E11000 duplicate key error", c1store) ∧
    (refreshFeed 100 (.ok c1items) 1 db0).fst = .err "E11000 duplicate key error" :=
  ⟨by decide, by decide,
   (c1_amended 100 1 c1items db0 feedA "E11000 duplicate key error" c1store
     (by decide) (by decide)).1⟩

/-- An upstream document whose first two items share a guid, plus a third
fresh item: the ordered bulk insert of run one stops at the guid conflict,
leaving the third item unpersisted for a later run to pick up. -/
def c7items : List Item := [itemLG "a" "g", itemLG "b" "g", itemLG "c" "h"]

/-- C7 counterexample: with an unchanged upstream document whose items
collide on a guid, the first `refreshFeed` run fails midway through its
ordered insert, and the second run then persists 1 further article — not
zero — growing the feed's article count. -/
theorem c7_counterexample :
    (refreshFeed 100 (.ok c7items) 1 db0).fst = .err "E11000 duplicate key error" ∧
    (refreshFeed 200 (.ok c7items) 1 (refreshFeed 100 (.ok c7items) 1 db0).snd).fst =
      .ok 1 ∧
    (refreshFeed 200 (.ok c7items) 1
        (refreshFeed 100 (.ok c7items) 1 db0).snd).snd.articles.length =
      (refreshFeed 100 (.ok c7items) 1 db0).snd.articles.length + 1 := by
  decide

/-- C7 amended: if the first `refreshFeed` run completes successfully (it
returns `ok`), then a second run over the same upstream document persists
zero new articles and leaves the article store unchanged. -/
theorem c7_amended (t1 t2 fid : Nat) (items : List Item) (db : DB) (n : Nat)
    (hok : (refreshFeed t1 (.ok items) fid db).fst = .ok n) :
    (refreshFeed t2 (.ok items) fid (refreshFeed t1 (.ok items) fid db).snd).fst =
      .ok 0 ∧
    (refreshFeed t2 (.ok items) fid (refreshFeed t1 (.ok items) fid db).snd).snd.articles =
      (refreshFeed t1 (.ok items) fid db).snd.articles := by
  rcases hf : findFeed db fid with _ | feed
  · rw [refreshFeed_notFound t1 (.ok items) fid db hf] at hok
    simp at hok
  rcases hp : insertMany db.articles (docsOf feed t1 db items) with ⟨e, store1⟩
  cases e with
  | some m =>
    rw [refreshFeed_err_eq t1 fid items db feed m store1 hf hp] at hok
    simp at hok
  | none =>
    have heq1 := refreshFeed_ok_eq t1 fid items db feed store1 hf hp
    rw [heq1]
    have hgo : insertManyGo db.articles (docsOf feed t1 db items) = (none, store1) := by
      revert hp
      unfold insertMany
      split
      · intro hcontra
        exact absurd (congrArg Prod.fst hcontra) (by simp)
      · intro hp2
        exact hp2
    have hall : ∀ it ∈ items.take 50, existsArticle store1 it = true := by
      intro it hit
      by_cases hex : existsArticle db.articles it = true
      · obtain ⟨rest, hrest⟩ := insertManyGo_prefix _ _ _ _ hgo
        rw [hrest]
        exact existsArticle_append _ _ _ hex
      · have hmem : it ∈ newItemsOf db items := by
          simp only [newItemsOf, List.mem_filter]
          refine ⟨hit, ?_⟩
          rw [Bool.not_eq_true] at hex
          simp [hex]
        have hd : itemToDocRefresh feed t1 it ∈ docsOf feed t1 db items :=
          List.mem_map_of_mem _ hmem
        obtain ⟨l, hl, hmem2⟩ := insertManyGo_mem _ _ _ hgo _ hd
        have hq := queryMatches_doc it feed t1 l hl
        simp only [existsArticle]
        exact List.any_eq_true.mpr ⟨_, hmem2, hq⟩
    have hfind2 : findFeed (refreshOkDB t1 feed db store1 (newItemsOf db items).length) fid =
        some (markAsFetched t1 (newItemsOf db items).length feed) :=
      findFeed_saveFeed { db with articles := store1 } fid feed _ hf rfl
    have hnil2 : newItemsOf (refreshOkDB t1 feed db store1 (newItemsOf db items).length) items = [] := by
      unfold newItemsOf
      rw [List.filter_eq_nil_iff]
      intro it hit
      have hx := hall it hit
      show ¬((!existsArticle store1 it) = true)
      simp [hx]
    have hins2 : insertMany
        (refreshOkDB t1 feed db store1 (newItemsOf db items).length).articles
        (docsOf (markAsFetched t1 (newItemsOf db items).length feed) t2
          (refreshOkDB t1 feed db store1 (newItemsOf db items).length) items) =
        (none, (refreshOkDB t1 feed db store1 (newItemsOf db items).length).articles) := by
      unfold docsOf
      rw [hnil2]
      rfl
    have heq2 := refreshFeed_ok_eq t2 fid items
      (refreshOkDB t1 feed db store1 (newItemsOf db items).length)
      (markAsFetched t1 (newItemsOf db items).length feed)
      (refreshOkDB t1 feed db store1 (newItemsOf db items).length).articles hfind2 hins2
    rw [heq2]
    exact ⟨by simp [hnil2], rfl⟩

/-- C7 witness: a successful first run over one fresh item, and the second
run persisting nothing. -/
theorem c7_amended_witness :
    (refreshFeed 100 (.ok [itemLG "w" "wg"]) 1 db0).fst = .ok 1 ∧
    (refreshFeed 200 (.ok [itemLG "w" "wg"]) 1
      (refreshFeed 100 (.ok [itemLG "w" "wg"]) 1 db0).snd).fst = .ok 0 :=
  ⟨by decide,
   (c7_amended 100 200 1 [itemLG "w" "wg"] db0 1 (by decide)).1⟩

/-!
The batch refresh: partitioned results and untouched collection stats.
-/

theorem processOne_inl_id (now : Nat) (ft : Except String (List Item)) (f : Feed)
    (db : DB) (e : Nat × String × Nat) (db1 : DB)
    (h : processOne now ft f db = (.inl e, db1)) : e.1 = f.id := by
  cases ft with
  | error msg => simp [processOne, Prod.mk.injEq] at h
  | ok items =>
    simp only [processOne] at h
    rcases hb : batchLoop f now (items.take 20) db.articles 0 with ⟨eo, store1, cnt⟩
    rw [hb] at h
    cases eo with
    | some m => simp [Prod.mk.injEq] at h
    | none =>
      simp only [Prod.mk.injEq] at h
      have he := Sum.inl.inj h.1
      rw [← he]

theorem processOne_inr_id (now : Nat) (ft : Except String (List Item)) (f : Feed)
    (db : DB) (e : Nat × String × String) (db1 : DB)
    (h : processOne now ft f db = (.inr e, db1)) : e.1 = f.id := by
  cases ft with
  | error msg =>
    simp only [processOne, Prod.mk.injEq] at h
    have he := Sum.inr.inj h.1
    rw [← he]
  | ok items =>
    simp only [processOne] at h
    rcases hb : batchLoop f now (items.take 20) db.articles 0 with ⟨eo, store1, cnt⟩
    rw [hb] at h
    cases eo with
    | some m =>
      simp only [Prod.mk.injEq] at h
      have he := Sum.inr.inj h.1
      rw [← he]
    | none => simp [Prod.mk.injEq] at h

theorem processFeeds_partition (now : Nat) (fetches : Nat → Except String (List Item)) :
    ∀ (sel : List Feed) (db : DB),
      List.Perm
        (((processFeeds now fetches sel db).fst.success.map (fun e => e.1)) ++
          ((processFeeds now fetches sel db).fst.failed.map (fun e => e.1)))
        (sel.map Feed.id) := by
  intro sel
  induction sel with
  | nil => intro db; simp [processFeeds]
  | cons f rest ih =>
    intro db
    rcases hp : processOne now (fetches f.id) f db with ⟨s, db1⟩
    cases s with
    | inl e =>
      have hid : e.1 = f.id := processOne_inl_id _ _ _ _ _ _ hp
      simp only [processFeeds, hp]
      rcases hq : processFeeds now fetches rest db1 with ⟨r, db2⟩
      simp only [hq]
      have ihx := ih db1
      rw [hq] at ihx
      simp only at ihx ⊢
      simp only [List.map_cons, List.cons_append, List.map, hid]
      exact ihx.cons f.id
    | inr e =>
      have hid : e.1 = f.id := processOne_inr_id _ _ _ _ _ _ hp
      simp only [processFeeds, hp]
      rcases hq : processFeeds now fetches rest db1 with ⟨r, db2⟩
      simp only [hq]
      have ihx := ih db1
      rw [hq] at ihx
      simp only at ihx ⊢
      simp only [List.map_cons]
      refine List.perm_middle.trans ?_
      rw [hid]
      exact ihx.cons f.id

/-- C8 confirmed: the batch refresh is a total function returning a
partitioned result — the feed ids in `success` and `failed` together are a
permutation of the ids of the feeds selected by `findFeedsToUpdate`, one
entry per selected feed; a rejected pipeline (fetch, parse, persist or
health update inside the per-feed try) lands in `failed` without aborting
the remaining feeds. -/
theorem c8_partition (now : Nat) (fetches : Nat → Except String (List Item)) (db : DB) :
    List.Perm
      (((refreshAllFeeds now fetches db).fst.success.map (fun e => e.1)) ++
        ((refreshAllFeeds now fetches db).fst.failed.map (fun e => e.1)))
      ((findFeedsToUpdate now db.feeds).map Feed.id) ∧
    (refreshAllFeeds now fetches db).fst.success.length +
      (refreshAllFeeds now fetches db).fst.failed.length =
      (findFeedsToUpdate now db.feeds).length := by
  have hperm := processFeeds_partition now fetches (findFeedsToUpdate now db.feeds) db
  refine ⟨hperm, ?_⟩
  have hlen := hperm.length_eq
  simpa using hlen

theorem processOne_collections (now : Nat) (ft : Except String (List Item))
    (f : Feed) (db : DB) :
    (processOne now ft f db).snd.collections = db.collections := by
  cases ft with
  | error msg => rfl
  | ok items =>
    simp only [processOne]
    rcases hb : batchLoop f now (items.take 20) db.articles 0 with ⟨eo, store1, cnt⟩
    cases eo <;> rfl

theorem processFeeds_collections (now : Nat) (fetches : Nat → Except String (List Item)) :
    ∀ (sel : List Feed) (db : DB),
      (processFeeds now fetches sel db).snd.collections = db.collections := by
  intro sel
  induction sel with
  | nil => intro db; rfl
  | cons f rest ih =>
    intro db
    rcases hp : processOne now (fetches f.id) f db with ⟨s, db1⟩
    have hc : db1.collections = db.collections := by
      have hx := processOne_collections now (fetches f.id) f db
      rw [hp] at hx
      exact hx
    cases s with
    | inl e =>
      simp only [processFeeds, hp]
      rcases hq : processFeeds now fetches rest db1 with ⟨r, db2⟩
      simp only [hq]
      have hx := ih db1
      rw [hq] at hx
      simp only at hx
      rw [hx, hc]
    | inr e =>
      simp only [processFeeds, hp]
      rcases hq : processFeeds now fetches rest db1 with ⟨r, db2⟩
      simp only [hq]
      have hx := ih db1
      rw [hq] at hx
      simp only at hx
      rw [hx, hc]

/-- The store left behind by a concrete batch refresh that ingests one
fresh article into `feedA`. -/
def c9db : DB :=
  (refreshAllFeeds 100 (fun _ => Except.ok [itemLG "n" "n2"]) db0).snd

/-- C9 counterexample: a scheduler-triggered batch refresh persists a new
article for a feed of collection 7 yet never recomputes any collection's
counters — the stored stats still read 0 total articles while a fresh
recompute over the post-ingestion store reads 1. -/
theorem c9_counterexample :
    c9db.articles.length = 1 ∧
    c9db.collections = db0.collections ∧
    coll7.stats.totalArticles = 0 ∧
    (updateStats c9db 999 coll7).stats.totalArticles = 1 := by
  decide

/-- C9 amended: the batch refresh (`refreshAllFeeds`) leaves every
collection document untouched — no counter recompute happens on that
path; only the manual single-feed refresh (`refreshFeed`), on success,
recomputes the four counters of every collection containing the feed in
full from the post-insert store state. -/
theorem c9_amended :
    (∀ (now : Nat) (fetches : Nat → Except String (List Item)) (db : DB),
      (refreshAllFeeds now fetches db).snd.collections = db.collections) ∧
    (∀ (now fid : Nat) (items : List Item) (db : DB) (n : Nat) (feed : Feed) (db2 : DB),
      findFeed db fid = some feed →
      refreshFeed now (.ok items) fid db = (.ok n, db2) →
      ∀ c ∈ db.collections, feed.collections.contains c.id = true →
        ∃ c2 ∈ db2.collections, c2.id = c.id ∧ c2.feeds = c.feeds ∧
          c2.stats.totalFeeds =
            (db2.feeds.filter (fun f => c.feeds.contains f.id)).length ∧
          c2.stats.activeFeeds =
            ((db2.feeds.filter (fun f => c.feeds.contains f.id)).filter
              (fun f => f.isActive)).length ∧
          c2.stats.totalArticles =
            (db2.articles.filter (fun a => c.feeds.contains a.feed)).length ∧
          c2.stats.unreadArticles =
            (db2.articles.filter
              (fun a => c.feeds.contains a.feed && a.readBy.isEmpty)).length) := by
  constructor
  · intro now fetches db
    exact processFeeds_collections now fetches (findFeedsToUpdate now db.feeds) db
  · intro now fid items db n feed db2 hfind heq c hc hcont
    rcases hp : insertMany db.articles (docsOf feed now db items) with ⟨e, store1⟩
    cases e with
    | some m =>
      rw [refreshFeed_err_eq now fid items db feed m store1 hfind hp] at heq
      simp [Prod.mk.injEq] at heq
    | none =>
      rw [refreshFeed_ok_eq now fid items db feed store1 hfind hp] at heq
      rw [Prod.mk.injEq] at heq
      obtain ⟨hn, hdb⟩ := heq
      subst hdb
      refine ⟨updateStats
        (saveFeed { db with articles := store1 }
          (markAsFetched now (newItemsOf db items).length feed)) now c, ?_,
        rfl, rfl, rfl, rfl, rfl, rfl⟩
      show updateStats _ now c ∈ db.collections.map (fun c =>
        if feed.collections.contains c.id then
          updateStats (saveFeed { db with articles := store1 }
            (markAsFetched now (newItemsOf db items).length feed)) now c
        else c)
      have hm := List.mem_map_of_mem (fun c =>
        if feed.collections.contains c.id then
          updateStats (saveFeed { db with articles := store1 }
            (markAsFetched now (newItemsOf db items).length feed)) now c
        else c) hc
      simp only at hm
      rw [if_pos hcont] at hm
      exact hm

/-- C9 witness: the manual refresh of `feedA` recomputes collection 7. -/
theorem c9_amended_witness :
    findFeed db0 1 = some feedA ∧
    coll7 ∈ db0.collections ∧
    feedA.collections.contains coll7.id = true ∧
    (∃ c2 ∈ (refreshFeed 100 (.ok [itemLG "m" "m2"]) 1 db0).snd.collections,
      c2.id = coll7.id ∧ c2.feeds = coll7.feeds ∧
      c2.stats.totalFeeds =
        ((refreshFeed 100 (.ok [itemLG "m" "m2"]) 1 db0).snd.feeds.filter
          (fun f => coll7.feeds.contains f.id)).length ∧
      c2.stats.activeFeeds =
        (((refreshFeed 100 (.ok [itemLG "m" "m2"]) 1 db0).snd.feeds.filter
          (fun f => coll7.feeds.contains f.id)).filter (fun f => f.isActive)).length ∧
      c2.stats.totalArticles =
        ((refreshFeed 100 (.ok [itemLG "m" "m2"]) 1 db0).snd.articles.filter
          (fun a => coll7.feeds.contains a.feed)).length ∧
      c2.stats.unreadArticles =
        ((refreshFeed 100 (.ok [itemLG "m" "m2"]) 1 db0).snd.articles.filter
          (fun a => coll7.feeds.contains a.feed && a.readBy.isEmpty)).length) :=
  ⟨by decide, by decide, by decide,
   c9_amended.2 100 1 [itemLG "m" "m2"] db0 1 feedA
     (refreshFeed 100 (.ok [itemLG "m" "m2"]) 1 db0).snd
     (by decide) rfl coll7 (by decide) (by decide)⟩

/-!
Content hashes across the two persistence paths.
-/

/-- C10 counterexample: the manual refresh persists its articles through
`insertMany`, which does not run the pre-save hook, so the persisted
article carries NO `contentHash`; moreover `link` is schema-required — a
document lacking both link and guid is rejected, never persisted without a
link. Both halves of the claim (hash always present, link potentially
absent) fail. -/
theorem c10_counterexample :
    (refreshFeed 100 (.ok [itemLG "m" "m2"]) 1 db0).fst = .ok 1 ∧
    (refreshFeed 100 (.ok [itemLG "m" "m2"]) 1 db0).snd.articles.map
      Article.contentHash = [none] ∧
    (itemToDocRefresh feedA 100 emptyItem).link = none ∧
    insertMany [] [itemToDocRefresh feedA 100 emptyItem] =
      (some "ValidationError", []) := by
  decide

/-- C10 amended: an article persisted by `Article.create` (the batch
refresh path) runs the pre-save hook and carries
`contentHash = sha256(title ++ content ++ link)`; an article persisted by
`Article.insertMany` (the manual refresh and initial-subscribe path)
bypasses the hook and carries no `contentHash` at all; `link` is required
on every persisted article while `guid` and `contentHash` are the
optional fields. -/
theorem c10_amended :
    (∀ (store store1 : List Article) (docs : List ArticleDoc) (e : Option String),
      insertManyGo store docs = (e, store1) →
      ∀ a ∈ store1, a ∈ store ∨ a.contentHash = none) ∧
    (∀ (store : List Article) (d : ArticleDoc) (l : String),
      d.link = some l →
      hasKeyConflict store l d.guid
        (some (generateContentHash d.title d.content l)) = false →
      createArticle store d = (none, store ++ [docToArticleHook d l]) ∧
      (docToArticleHook d l).contentHash =
        some (generateContentHash d.title d.content l)) := by
  constructor
  · intro store store1 docs e h
    induction docs generalizing store store1 e with
    | nil =>
      simp only [insertManyGo, Prod.mk.injEq] at h
      intro a ha
      rw [← h.2] at ha
      exact Or.inl ha
    | cons d ds ih =>
      cases hdl : d.link with
      | none =>
        simp only [insertManyGo, hdl, Prod.mk.injEq] at h
        intro a ha
        rw [← h.2] at ha
        exact Or.inl ha
      | some l =>
        simp only [insertManyGo, hdl] at h
        by_cases hcf : hasKeyConflict store l d.guid none = true
        · rw [if_pos hcf] at h
          simp only [Prod.mk.injEq] at h
          intro a ha
          rw [← h.2] at ha
          exact Or.inl ha
        · rw [if_neg hcf] at h
          intro a ha
          rcases ih _ _ _ h a ha with hmem | hhash
          · rcases List.mem_append.mp hmem with hs | hnew
            · exact Or.inl hs
            · refine Or.inr ?_
              rw [List.mem_singleton.mp hnew]
              rfl
          · exact Or.inr hhash
  · intro store d l hl hconf
    refine ⟨?_, rfl⟩
    have hch : (docToArticleHook d l).contentHash =
        some (generateContentHash d.title d.content l) := rfl
    simp only [createArticle, hl, hch, hconf, Bool.false_eq_true, if_false]

/-- C10 witness: one hookless insert and one hooked create at concrete
documents. -/
theorem c10_amended_witness :
    insertManyGo [] [itemToDocRefresh feedA 100 (itemLG "w" "wg")] =
      (none, [docToArticleNoHook (itemToDocRefresh feedA 100 (itemLG "w" "wg")) "w"]) ∧
    docToArticleNoHook (itemToDocRefresh feedA 100 (itemLG "w" "wg")) "w" ∈
      [docToArticleNoHook (itemToDocRefresh feedA 100 (itemLG "w" "wg")) "w"] ∧
    (docToArticleNoHook (itemToDocRefresh feedA 100 (itemLG "w" "wg")) "w" ∈
      ([] : List Article) ∨
      (docToArticleNoHook (itemToDocRefresh feedA 100 (itemLG "w" "wg")) "w").contentHash =
        none) ∧
    (itemToDocBatch feedA 100 (itemLG "w" "wg")).link = some "w" ∧
    hasKeyConflict [] "w" (itemToDocBatch feedA 100 (itemLG "w" "wg")).guid
      (some (generateContentHash (itemToDocBatch feedA 100 (itemLG "w" "wg")).title
        (itemToDocBatch feedA 100 (itemLG "w" "wg")).content "w")) = false ∧
    (docToArticleHook (itemToDocBatch feedA 100 (itemLG "w" "wg")) "w").contentHash =
      some (generateContentHash (itemToDocBatch feedA 100 (itemLG "w" "wg")).title
        (itemToDocBatch feedA 100 (itemLG "w" "wg")).content "w") :=
  ⟨by decide, by simp,
   c10_amended.1 []
     [docToArticleNoHook (itemToDocRefresh feedA 100 (itemLG "w" "wg")) "w"]
     [itemToDocRefresh feedA 100 (itemLG "w" "wg")] none (by decide)
     (docToArticleNoHook (itemToDocRefresh feedA 100 (itemLG "w" "wg")) "w") (by simp),
   by decide, by decide,
   (c10_amended.2 [] (itemToDocBatch feedA 100 (itemLG "w" "wg")) "w"
     (by decide) (by decide)).2⟩

end SUPRSS
